import Mathlib

/-!
Verification of the WebGL PBR model performance tool (`src/main.js`) against
its natural-language specification.  The development shallowly embeds the
two core subsystems:

* the debounced mesh-simplification driver (`applySimplification`,
  `onModelLoaded`'s original-geometry bookkeeping), and
* the telemetry sampler (the 500 ms aggregation block of `animate`,
  the `PerfChart` rolling history, and the `GPUTimer` pending-query queue).

JavaScript numbers are modelled as rationals (`ℚ`); `Math.floor` is `Int.floor`,
`Math.round` is Mathlib's `round` (both round half-up, as in JS).  The external
three.js `SimplifyModifier.modify` is not part of this repository; it is
modelled as an abstract function that either returns a fresh geometry or
throws, and the theorems quantify over it.
-/

/-- A `BufferGeometry` as far as the driver code observes it: an object
identity (`gid`, standing in for JS reference identity) and its
`attributes.position.count`. -/
structure Geometry where
  gid : Nat
  vertexCount : Nat
deriving DecidableEq

/-- One entry of the `originalMeshes` array (`main.js` lines 848-852):
the scene mesh's currently displayed geometry (`mesh.geometry`), the clone
stored at load time (`geometry`), and the index of the loaded model the mesh
belongs to (used by the scope filter, lines 908-923). -/
structure OriginalMeshEntry where
  modelIndex : Nat
  meshGeometry : Geometry
  geometry : Geometry
deriving DecidableEq

/-- Which branch of the per-mesh body of `applySimplification` (lines 931-951)
ran, reified so theorems can speak about it.  `invalidReductionTarget` is the
`return` on line 941 (`countToRemove >= totalVertices`), the rejection the
spec calls the `InvalidReductionTarget` condition; `keptOriginalOnError` is
the `catch` branch (lines 948-950). -/
inductive SimplifyOutcome where
  | restoredOriginal
  | invalidReductionTarget
  | skippedZero
  | simplified (g : Geometry)
  | keptOriginalOnError
deriving DecidableEq

/-- The external simplifier (`modifier.modify`): given a geometry and a
removal count it either returns a new geometry or throws. -/
def Modifier : Type := Geometry → Nat → Except Unit Geometry

/-- `const countToRemove = Math.floor(totalVertices * reduceRatio)`
(line 939). -/
def countToRemove (totalVertices : Nat) (reduceRatio : ℚ) : Int :=
  ⌊(totalVertices : ℚ) * reduceRatio⌋

/-- The per-mesh body of the debounced simplification pass
(`main.js` lines 931-951), as a function of one `originalMeshes` entry.
Only `mesh.geometry` is ever assigned; the stored `geometry` field is only
read.  The `mesh.geometry !== geometry` checks of lines 935 and 949 skip a
write whose value equals the stored geometry, so the net state is as written
here. -/
def simplifyMeshStep (modify : Modifier) (reduceRatio : ℚ)
    (e : OriginalMeshEntry) : OriginalMeshEntry × SimplifyOutcome :=
  if reduceRatio ≤ 5 / 1000 then
    ({ e with meshGeometry := e.geometry }, .restoredOriginal)
  else
    let totalVertices := e.geometry.vertexCount
    let c := countToRemove totalVertices reduceRatio
    if (totalVertices : Int) ≤ c then
      (e, .invalidReductionTarget)
    else if c ≤ 0 then
      (e, .skippedZero)
    else
      match modify e.geometry c.toNat with
      | .ok simplified => ({ e with meshGeometry := simplified }, .simplified simplified)
      | .error _ => ({ e with meshGeometry := e.geometry }, .keptOriginalOnError)

/-- The target scope radio (`simp-scope`): simplify all loaded meshes or only
the currently selected model. -/
inductive SimpScope where
  | all
  | current
deriving DecidableEq

/-- `targetMeshes` as computed in `applySimplification` (lines 906-923):
under scope `current` only the entries whose mesh belongs to the selected
model. -/
def targetMeshes (scope : SimpScope) (selectedModelIndex : Nat)
    (originalMeshes : List OriginalMeshEntry) : List OriginalMeshEntry :=
  match scope with
  | .all => originalMeshes
  | .current => originalMeshes.filter (fun s => s.modelIndex = selectedModelIndex)

/-- The debounced body of `applySimplification` (lines 927-952).  Note the
source iterates `originalMeshes.forEach` on line 931 — not the `targetMeshes`
list it computed on lines 906-923, which is never read again — so every
loaded mesh is processed regardless of scope.  The dead `targetMeshes`
computation is kept here to mirror the source. -/
def applySimplificationPass (modify : Modifier) (scope : SimpScope)
    (selectedModelIndex : Nat) (reduceRatio : ℚ)
    (originalMeshes : List OriginalMeshEntry) : List OriginalMeshEntry :=
  let _target := targetMeshes scope selectedModelIndex originalMeshes
  originalMeshes.map (fun s => (simplifyMeshStep modify reduceRatio s).1)

/-- A sequence of simplification passes (each a scope, a selected model and a
ratio), applied in order. -/
def runPasses (modify : Modifier) (passes : List (SimpScope × Nat × ℚ))
    (st : List OriginalMeshEntry) : List OriginalMeshEntry :=
  passes.foldl (fun s p => applySimplificationPass modify p.1 p.2.1 p.2.2 s) st

/-- A concrete simplifier that always succeeds, returning a fresh geometry
with the requested number of vertices removed. -/
def okModifier : Modifier :=
  fun g c => .ok ⟨g.gid + 100, g.vertexCount - c⟩

/-- A concrete simplifier that always throws. -/
def throwingModifier : Modifier :=
  fun _ _ => .error ()

example :
    simplifyMeshStep okModifier (1/2) ⟨0, ⟨1, 8⟩, ⟨2, 8⟩⟩ =
      (⟨0, ⟨102, 4⟩, ⟨2, 8⟩⟩, .simplified ⟨102, 4⟩) := by
  simp only [simplifyMeshStep, countToRemove, okModifier]
  norm_num
  decide

example :
    simplifyMeshStep okModifier 0 ⟨0, ⟨1, 8⟩, ⟨2, 8⟩⟩ =
      (⟨0, ⟨2, 8⟩, ⟨2, 8⟩⟩, .restoredOriginal) := by
  simp only [simplifyMeshStep, countToRemove, okModifier]
  norm_num

example :
    simplifyMeshStep okModifier (1/2) ⟨0, ⟨1, 0⟩, ⟨2, 0⟩⟩ =
      (⟨0, ⟨1, 0⟩, ⟨2, 0⟩⟩, .invalidReductionTarget) := by
  simp only [simplifyMeshStep, countToRemove, okModifier]
  norm_num

example :
    simplifyMeshStep throwingModifier (1/2) ⟨0, ⟨1, 4⟩, ⟨2, 8⟩⟩ =
      (⟨0, ⟨2, 8⟩, ⟨2, 8⟩⟩, .keptOriginalOnError) := by
  simp only [simplifyMeshStep, countToRemove, throwingModifier]
  norm_num

/-! ## Debounce (`applySimplification`, lines 897-963)

`applySimplification` cancels the pending timeout (`clearTimeout`, line 899)
and schedules the pass body `quietPeriod` milliseconds later (`setTimeout`,
lines 927-963).  A pending timer fires only if its deadline has been reached
before the next slider event arrives. -/

/-- The debounce quiet period: `setTimeout(..., 150)` on line 963. -/
def quietPeriod : ℚ := 150

/-- State of the debounced scheduler: the passes that have already executed
(as pairs of (execution time, ratio)) and the pending timer, if any. -/
structure DebounceState where
  fired : List (ℚ × ℚ)
  pending : Option (ℚ × ℚ)
deriving DecidableEq

/-- Timers whose deadline has passed fire before code running at time `t`.
(Under the claim's hypothesis — events less than `quietPeriod` apart — a
pending deadline is never reached when the next event arrives, so the
boundary case `deadline = t` never occurs.) -/
def fireDue (s : DebounceState) (t : ℚ) : DebounceState :=
  match s.pending with
  | some p => if p.1 ≤ t then { fired := s.fired ++ [p], pending := none } else s
  | none => s

/-- One reduction-ratio change event at time `e.1` with ratio `e.2`:
any already-due timer has fired; the still-pending timer is cancelled
(`clearTimeout`, line 899) and a new one is scheduled for
`e.1 + quietPeriod` with this event's ratio (line 927). -/
def debounceEvent (s : DebounceState) (e : ℚ × ℚ) : DebounceState :=
  let s1 := fireDue s e.1
  { fired := s1.fired, pending := some (e.1 + quietPeriod, e.2) }

/-- Process a time-ordered list of ratio-change events from the idle state and
let the final pending timer (if any) fire: the list of executed
simplification passes, each with its execution time and ratio. -/
def debounceRun (events : List (ℚ × ℚ)) : List (ℚ × ℚ) :=
  let s := events.foldl debounceEvent ⟨[], none⟩
  match s.pending with
  | some p => s.fired ++ [p]
  | none => s.fired

/-! ## Telemetry sampler (`animate`, lines 989-1059) -/

/-- The frame-rate mode: `params.unlockFPS` selects `setTimeout(animate, 0)`
(uncapped) over `requestAnimationFrame(animate)` (capped) on lines 990-994. -/
inductive ScheduleMode where
  | capped
  | uncapped
deriving DecidableEq

/-- How the next loop iteration is scheduled (lines 990-994). -/
inductive NextSchedule where
  | viaSetTimeout
  | viaRequestAnimationFrame
deriving DecidableEq

/-- One rendered frame as the aggregation block observes it: the wall-clock
time `now` at the top of `animate`, the frame's measured `cpuTime`
(lines 1015-1024), and the GPU poll result for this reporting boundary
(`gpuTimer.poll()`, `null` modelled as `none`). -/
structure FrameSample where
  time : ℚ
  cpuMillis : ℚ
  gpuMillis : Option ℚ
deriving DecidableEq

/-- The aggregated record pushed to the stats panel and charts every 500 ms
(lines 1026-1054). -/
structure AggRecord where
  fps : Int
  avgFrameTimeMillis : ℚ
  cpuMillis : ℚ
  gpuMillis : Option ℚ
deriving DecidableEq

/-- The sampler's persistent state across frames: `lastTime` and
`frameCount`. -/
structure TelemetryState where
  lastTime : ℚ
  frameCount : Nat
deriving DecidableEq

/-- JavaScript `x.toFixed(2)` on a non-negative number: round to the nearest
hundredth, half up. -/
def toFixed2 (q : ℚ) : ℚ := (round (q * 100) : ℚ) / 100

/-- One iteration of `animate` (lines 989-1059) restricted to what it does
with the telemetry state: schedule the next iteration according to the mode
(lines 990-994), bump `frameCount` (line 997), and, when at least 500 ms have
passed since `lastTime` (line 1026), emit the aggregated record —
`fps = Math.round(frameCount * 1000 / timeDiff)` (line 1028),
`frameTime = (timeDiff / frameCount).toFixed(2)` (line 1029), the current
frame's `cpuTime`, and the GPU poll result — then reset `frameCount` and
`lastTime` (lines 1056-1057).  The mode is consumed only by the scheduling
choice; the aggregation block never reads `params.unlockFPS`. -/
def animateStep (mode : ScheduleMode) (st : TelemetryState) (f : FrameSample) :
    NextSchedule × TelemetryState × Option AggRecord :=
  let next := match mode with
    | .uncapped => NextSchedule.viaSetTimeout
    | .capped => NextSchedule.viaRequestAnimationFrame
  let frameCount := st.frameCount + 1
  (next,
    if 500 ≤ f.time - st.lastTime then
      let timeDiff := f.time - st.lastTime
      let fps := round ((frameCount : ℚ) * 1000 / timeDiff)
      let frameTime := toFixed2 (timeDiff / (frameCount : ℚ))
      (⟨f.time, 0⟩, some ⟨fps, frameTime, f.cpuMillis, f.gpuMillis⟩)
    else
      (⟨st.lastTime, frameCount⟩, none))

/-- Run the sampler over a sequence of frames, collecting every emitted
aggregated record. -/
def runFrames (mode : ScheduleMode) (st : TelemetryState)
    (frames : List FrameSample) : TelemetryState × List AggRecord :=
  frames.foldl
    (fun acc f =>
      let r := animateStep mode acc.1 f
      (r.2.1, acc.2 ++ r.2.2.toList))
    (st, [])

/-- The arithmetic mean of a list of rationals. -/
def arithmeticMean (l : List ℚ) : ℚ := l.sum / (l.length : ℚ)

/-! ## Rolling chart history (`PerfChart`, lines 10-42) -/

/-- `this.data = new Array(60).fill(0)` (line 16). -/
def chartInit : List ℚ := List.replicate 60 0

/-- `PerfChart.update`: `this.data.shift(); this.data.push(val)`
(lines 40-41). -/
def chartUpdate (d : List ℚ) (val : ℚ) : List ℚ := d.tail ++ [val]

/-! ## GPU timer pending-query queue (`GPUTimer`, lines 134-173) -/

/-- What `poll` observes about the head query: its result is available with a
time in nanoseconds, available but the disjoint flag is set, or not yet
available. -/
inductive QueryStatus where
  | ready (timeNs : ℚ)
  | disjoint
  | notReady
deriving DecidableEq

/-- `GPUTimer.start` (lines 144-149): when the extension is available, create
a query and push it onto `this.queries`. -/
def gpuStart (available : Bool) (queries : List Nat) (newQuery : Nat) :
    List Nat :=
  if available then queries ++ [newQuery] else queries

/-- `GPUTimer.poll` (lines 156-172): inspect only the head of
`this.queries`.  If its result is available and not disjoint, shift it off and
return the time; if available but disjoint, shift it off and return `null`;
if not available, return `null` leaving the queue untouched — the head query
is not removed. -/
def gpuPoll (available : Bool) (status : QueryStatus) (queries : List Nat) :
    List Nat × Option ℚ :=
  if available = false ∨ queries = [] then (queries, none)
  else
    match status with
    | .ready timeNs => (queries.tail, some (timeNs / 1000000))
    | .disjoint => (queries.tail, none)
    | .notReady => (queries, none)

/-- An event of the render loop as it touches the pending-query queue: a
rendered frame (`gpuTimer.start()` … `gpuTimer.end()`, lines 1016-1022, one
start/end pair per frame) or a 500 ms reporting boundary
(`gpuTimer.poll()`, line 1031). -/
inductive GpuEvent where
  | frame (qid : Nat)
  | pollEvent (status : QueryStatus)
deriving DecidableEq

/-- Effect of one render-loop event on the pending-query queue. -/
def gpuLoopStep (available : Bool) (queries : List Nat) :
    GpuEvent → List Nat
  | .frame qid => gpuStart available queries qid
  | .pollEvent status => (gpuPoll available status queries).1

/-- The pending-query queue after a trace of render-loop events, starting
from the empty queue of the constructor (line 139). -/
def gpuRun (available : Bool) (events : List GpuEvent) : List Nat :=
  events.foldl (gpuLoopStep available) []

/-! ## Helper lemmas on the simplification pass -/

/-- No branch of the per-mesh body ever writes the stored original
geometry. -/
theorem simplifyMeshStep_geometry_eq (modify : Modifier) (r : ℚ)
    (e : OriginalMeshEntry) :
    (simplifyMeshStep modify r e).1.geometry = e.geometry := by
  simp only [simplifyMeshStep]
  split
  · rfl
  · split
    · rfl
    · split
      · rfl
      · split <;> rfl

/-- No branch of the per-mesh body changes which model the entry belongs
to. -/
theorem simplifyMeshStep_modelIndex_eq (modify : Modifier) (r : ℚ)
    (e : OriginalMeshEntry) :
    (simplifyMeshStep modify r e).1.modelIndex = e.modelIndex := by
  simp only [simplifyMeshStep]
  split
  · rfl
  · split
    · rfl
    · split
      · rfl
      · split <;> rfl

/-- At a ratio of at most 0.005 the per-mesh body takes the restore branch:
the displayed geometry becomes the stored original. -/
theorem simplifyMeshStep_restore (modify : Modifier) (r : ℚ)
    (e : OriginalMeshEntry) (h : r ≤ 5 / 1000) :
    (simplifyMeshStep modify r e).1.meshGeometry = e.geometry := by
  simp [simplifyMeshStep, h]

/-- A whole pass preserves the stored original geometry of every entry. -/
theorem applySimplificationPass_map_geometry (modify : Modifier)
    (scope : SimpScope) (sel : Nat) (r : ℚ) (st : List OriginalMeshEntry) :
    (applySimplificationPass modify scope sel r st).map (·.geometry) =
      st.map (·.geometry) := by
  unfold applySimplificationPass
  rw [List.map_map]
  apply List.map_congr_left
  intro a _
  exact simplifyMeshStep_geometry_eq modify r a

/-- Any sequence of passes preserves the stored original geometry of every
entry. -/
theorem runPasses_map_geometry (modify : Modifier)
    (passes : List (SimpScope × Nat × ℚ)) (st : List OriginalMeshEntry) :
    (runPasses modify passes st).map (·.geometry) = st.map (·.geometry) := by
  induction passes generalizing st with
  | nil => rfl
  | cons p ps ih =>
      simp only [runPasses, List.foldl_cons] at ih ⊢
      rw [ih, applySimplificationPass_map_geometry]

/-- A pass at ratio at most 0.005 sets every displayed geometry to the stored
original. -/
theorem applySimplificationPass_restore (modify : Modifier)
    (scope : SimpScope) (sel : Nat) (r : ℚ) (st : List OriginalMeshEntry)
    (h : r ≤ 5 / 1000) :
    (applySimplificationPass modify scope sel r st).map (·.meshGeometry) =
      st.map (·.geometry) := by
  unfold applySimplificationPass
  rw [List.map_map]
  apply List.map_congr_left
  intro a _
  exact simplifyMeshStep_restore modify r a h

/-! ## Claims C1, C2, C3, C9, C10 -/

/-- Claim C1: for every loaded mesh, the original geometry stored at load time
is never mutated by any simplification pass (any modifier behaviour, any
scope, any ratios), and a final pass with reduction ratio at most 0.005 after
any sequence of passes sets every mesh's displayed geometry back to exactly
the stored original. -/
theorem c1_originals_immutable_and_low_ratio_restores (modify : Modifier)
    (passes : List (SimpScope × Nat × ℚ)) (scope : SimpScope) (sel : Nat)
    (ratio : ℚ) (st : List OriginalMeshEntry) (h : ratio ≤ 5 / 1000) :
    (runPasses modify passes st).map (·.geometry) = st.map (·.geometry) ∧
    (applySimplificationPass modify scope sel ratio
        (runPasses modify passes st)).map (·.meshGeometry) =
      st.map (·.geometry) := by
  refine ⟨runPasses_map_geometry modify passes st, ?_⟩
  rw [applySimplificationPass_restore modify scope sel ratio
    (runPasses modify passes st) h]
  exact runPasses_map_geometry modify passes st

theorem c1_witness :
    ((0 : ℚ) ≤ 5 / 1000) ∧
    ((runPasses okModifier [(SimpScope.all, 0, 1/2)]
          [⟨0, ⟨1, 8⟩, ⟨2, 8⟩⟩]).map (·.geometry) =
        [(⟨2, 8⟩ : Geometry)] ∧
      (applySimplificationPass okModifier SimpScope.all 0 0
          (runPasses okModifier [(SimpScope.all, 0, 1/2)]
            [⟨0, ⟨1, 8⟩, ⟨2, 8⟩⟩])).map (·.meshGeometry) =
        [(⟨2, 8⟩ : Geometry)]) :=
  ⟨by norm_num,
    c1_originals_immutable_and_low_ratio_restores okModifier
      [(SimpScope.all, 0, 1/2)] SimpScope.all 0 0
      [⟨0, ⟨1, 8⟩, ⟨2, 8⟩⟩] (by norm_num)⟩

/-- Claim C2: whenever the requested removal count reaches the vertex count of
the stored original geometry, the per-mesh call is rejected through the
`countToRemove >= totalVertices` guard (line 941) — the spec's
`InvalidReductionTarget` condition, recovered as a no-op — for every modifier
(the simplifier is never consulted, so nothing can crash or loop), and the
entry, its displayed geometry included, is left unchanged. -/
theorem c2_invalid_reduction_target_rejected (modify : Modifier) (ratio : ℚ)
    (e : OriginalMeshEntry) (h5 : 5 / 1000 < ratio)
    (hge : (e.geometry.vertexCount : Int) ≤
      countToRemove e.geometry.vertexCount ratio) :
    simplifyMeshStep modify ratio e = (e, .invalidReductionTarget) := by
  simp [simplifyMeshStep, not_le.mpr h5, hge]

theorem c2_witness :
    ((5 : ℚ) / 1000 < 1/2 ∧
      ((⟨0, ⟨1, 0⟩, ⟨2, 0⟩⟩ : OriginalMeshEntry).geometry.vertexCount : Int) ≤
        countToRemove
          (⟨0, ⟨1, 0⟩, ⟨2, 0⟩⟩ : OriginalMeshEntry).geometry.vertexCount
          (1/2)) ∧
    simplifyMeshStep throwingModifier (1/2) ⟨0, ⟨1, 0⟩, ⟨2, 0⟩⟩ =
      (⟨0, ⟨1, 0⟩, ⟨2, 0⟩⟩, .invalidReductionTarget) := by
  have h5 : (5 : ℚ) / 1000 < 1/2 := by norm_num
  have hge : ((⟨0, ⟨1, 0⟩, ⟨2, 0⟩⟩ : OriginalMeshEntry).geometry.vertexCount : Int) ≤
      countToRemove
        (⟨0, ⟨1, 0⟩, ⟨2, 0⟩⟩ : OriginalMeshEntry).geometry.vertexCount (1/2) := by
    norm_num [countToRemove]
  exact ⟨⟨h5, hge⟩,
    c2_invalid_reduction_target_rejected throwingModifier (1/2) _ h5 hge⟩

/-- Claim C3 fails as stated: when the simplifier throws on a mesh whose
displayed geometry was already a simplified one (different from the stored
original), the catch branch (lines 948-950) resets the displayed geometry to
the stored original — it does not keep the geometry displayed before the
failed pass. -/
theorem c3_counterexample :
    (simplifyMeshStep throwingModifier (1/2) ⟨0, ⟨1, 4⟩, ⟨2, 8⟩⟩).1.meshGeometry ≠
      (⟨0, ⟨1, 4⟩, ⟨2, 8⟩⟩ : OriginalMeshEntry).meshGeometry := by
  simp only [simplifyMeshStep, countToRemove, throwingModifier]
  norm_num

/-- Claim C3 amended: if the simplification of a mesh raises an exception, the
error is caught at the call boundary and the mesh's displayed geometry is set
to the stored original geometry — a valid full mesh, never a partially
simplified one (the assignment of the simplifier's output happens only on
success).  When the displayed geometry before the failed pass was the stored
original, it is therefore unchanged. -/
theorem c3_amended_error_resets_to_original (modify : Modifier) (ratio : ℚ)
    (e : OriginalMeshEntry)
    (h : (simplifyMeshStep modify ratio e).2 = .keptOriginalOnError) :
    (simplifyMeshStep modify ratio e).1 = { e with meshGeometry := e.geometry } := by
  by_cases h1 : ratio ≤ 5 / 1000
  · simp [simplifyMeshStep, h1] at h
  · by_cases h2 : (e.geometry.vertexCount : Int) ≤
        countToRemove e.geometry.vertexCount ratio
    · simp [simplifyMeshStep, h1, h2] at h
    · by_cases h3 : countToRemove e.geometry.vertexCount ratio ≤ 0
      · simp [simplifyMeshStep, h1, h2, h3] at h
      · cases hm : modify e.geometry
            (countToRemove e.geometry.vertexCount ratio).toNat with
        | ok g => simp [simplifyMeshStep, h1, h2, h3, hm] at h
        | error u => simp [simplifyMeshStep, h1, h2, h3, hm]

theorem c3_amended_witness :
    ((simplifyMeshStep throwingModifier (1/2)
        ⟨0, ⟨1, 4⟩, ⟨2, 8⟩⟩).2 = .keptOriginalOnError) ∧
    (simplifyMeshStep throwingModifier (1/2) ⟨0, ⟨1, 4⟩, ⟨2, 8⟩⟩).1 =
      ⟨0, ⟨2, 8⟩, ⟨2, 8⟩⟩ := by
  have h : (simplifyMeshStep throwingModifier (1/2)
      ⟨0, ⟨1, 4⟩, ⟨2, 8⟩⟩).2 = .keptOriginalOnError := by
    simp only [simplifyMeshStep, countToRemove, throwingModifier]
    norm_num
  exact ⟨h, c3_amended_error_resets_to_original throwingModifier (1/2) _ h⟩

/-- A two-model scene: one mesh belonging to model 0, one to model 1, each
displaying its stored original geometry (8 vertices each). -/
def twoModelScene : List OriginalMeshEntry :=
  [⟨0, ⟨10, 8⟩, ⟨10, 8⟩⟩, ⟨1, ⟨11, 8⟩, ⟨11, 8⟩⟩]

/-- Claim C9 is violated by the code: with scope `current` and model 0
selected, `targetMeshes` is correctly filtered to model 0's single mesh, but
the debounced body iterates `originalMeshes` (line 931), so at ratio 1/2 the
mesh of the unselected model 1 also has its displayed geometry replaced by a
simplified one. -/
theorem c9_scope_ignored_other_model_changed :
    targetMeshes SimpScope.current 0 twoModelScene =
      [⟨0, ⟨10, 8⟩, ⟨10, 8⟩⟩] ∧
    applySimplificationPass okModifier SimpScope.current 0 (1/2)
        twoModelScene =
      [⟨0, ⟨110, 4⟩, ⟨10, 8⟩⟩, ⟨1, ⟨111, 4⟩, ⟨11, 8⟩⟩] ∧
    ((⟨111, 4⟩ : Geometry) ≠ ⟨11, 8⟩) := by
  refine ⟨by decide, ?_, by decide⟩
  simp only [applySimplificationPass, twoModelScene, List.map,
    simplifyMeshStep, countToRemove, okModifier]
  norm_num
  decide

/-- Claim C10: whenever the debounced body reaches the simplifier call — the
outcomes `simplified` and `keptOriginalOnError` are exactly the branches in
which `modifier.modify` was invoked — the computed removal count is strictly
between 0 and the source geometry's vertex count, for every ratio in
`[0, 1)`. -/
theorem c10_modify_only_called_in_range (modify : Modifier) (ratio : ℚ)
    (e : OriginalMeshEntry) (h0 : 0 ≤ ratio) (h1 : ratio < 1)
    (h : (simplifyMeshStep modify ratio e).2 = .keptOriginalOnError ∨
      ∃ g, (simplifyMeshStep modify ratio e).2 = .simplified g) :
    0 < countToRemove e.geometry.vertexCount ratio ∧
    countToRemove e.geometry.vertexCount ratio <
      (e.geometry.vertexCount : Int) := by
  by_cases hb : ratio ≤ 5 / 1000
  · rcases h with h | ⟨g, h⟩ <;> simp [simplifyMeshStep, hb] at h
  · by_cases h2 : (e.geometry.vertexCount : Int) ≤
        countToRemove e.geometry.vertexCount ratio
    · rcases h with h | ⟨g, h⟩ <;> simp [simplifyMeshStep, hb, h2] at h
    · by_cases h3 : countToRemove e.geometry.vertexCount ratio ≤ 0
      · rcases h with h | ⟨g, h⟩ <;> simp [simplifyMeshStep, hb, h2, h3] at h
      · exact ⟨lt_of_not_le h3, lt_of_not_le h2⟩

theorem c10_witness :
    ((0 : ℚ) ≤ 1/2 ∧ (1 : ℚ)/2 < 1 ∧
      (∃ g, (simplifyMeshStep okModifier (1/2)
        (⟨0, ⟨1, 8⟩, ⟨2, 8⟩⟩ : OriginalMeshEntry)).2 = .simplified g)) ∧
    (0 < countToRemove 8 (1/2) ∧ countToRemove 8 (1/2) < (8 : Int)) := by
  have hex : ∃ g, (simplifyMeshStep okModifier (1/2)
      (⟨0, ⟨1, 8⟩, ⟨2, 8⟩⟩ : OriginalMeshEntry)).2 = .simplified g := by
    refine ⟨⟨102, 4⟩, ?_⟩
    simp only [simplifyMeshStep, countToRemove, okModifier]
    norm_num
    decide
  exact ⟨⟨by norm_num, by norm_num, hex⟩,
    c10_modify_only_called_in_range okModifier (1/2) ⟨0, ⟨1, 8⟩, ⟨2, 8⟩⟩
      (by norm_num) (by norm_num) (Or.inr hex)⟩

/-! ## Claim C4 -/

/-- Events strictly increasing in time and each arriving strictly less than
the quiet period after its predecessor. -/
def RapidFire (events : List (ℚ × ℚ)) : Prop :=
  List.Chain' (fun a b : ℚ × ℚ => a.1 < b.1 ∧ b.1 < a.1 + quietPeriod) events

/-- While events keep arriving within the quiet period, the pending timer
never fires: each event cancels its predecessor's timer and reschedules. -/
theorem debounce_foldl_pending (rest : List (ℚ × ℚ)) :
    ∀ (t r : ℚ) (fired : List (ℚ × ℚ)),
      RapidFire ((t, r) :: rest) →
      rest.foldl debounceEvent ⟨fired, some (t + quietPeriod, r)⟩ =
        ⟨fired, some ((rest.getLastD (t, r)).1 + quietPeriod,
          (rest.getLastD (t, r)).2)⟩ := by
  induction rest with
  | nil => intro t r fired _; rfl
  | cons e rest ih =>
      obtain ⟨t2, r2⟩ := e
      intro t r fired hch
      obtain ⟨⟨hlt, hgap⟩, hch2⟩ := List.chain'_cons.mp hch
      rw [List.foldl_cons]
      have hstep : debounceEvent ⟨fired, some (t + quietPeriod, r)⟩ (t2, r2) =
          ⟨fired, some (t2 + quietPeriod, r2)⟩ := by
        simp [debounceEvent, fireDue, not_le.mpr hgap]
      rw [hstep, ih t2 r2 fired hch2, List.getLastD_cons]

/-- Claim C4: for any nonempty sequence of reduction-ratio change events each
arriving strictly less than the 150 ms quiet period after the previous one,
exactly one simplification pass executes; it runs at the last event's time
plus 150 ms and uses the last event's ratio, and every superseded
intermediate request is discarded (the fired-pass list is a singleton —
nothing was queued). -/
theorem c4_debounce_exactly_one_pass (t r : ℚ) (rest : List (ℚ × ℚ))
    (hch : RapidFire ((t, r) :: rest)) :
    debounceRun ((t, r) :: rest) =
      [((rest.getLastD (t, r)).1 + quietPeriod, (rest.getLastD (t, r)).2)] := by
  have h0 : debounceEvent ⟨[], none⟩ (t, r) = ⟨[], some (t + quietPeriod, r)⟩ := rfl
  simp only [debounceRun, List.foldl_cons, h0,
    debounce_foldl_pending rest t r [] hch, List.nil_append]

theorem c4_witness :
    RapidFire [((0 : ℚ), (1 : ℚ)/10), (50, 2/10), (100, 9/10)] ∧
    debounceRun [((0 : ℚ), (1 : ℚ)/10), (50, 2/10), (100, 9/10)] =
      [(250, 9/10)] := by
  have hch : RapidFire [((0 : ℚ), (1 : ℚ)/10), (50, 2/10), (100, 9/10)] := by
    simp only [RapidFire, List.chain'_cons, List.chain'_singleton, quietPeriod]
    norm_num
  refine ⟨hch, ?_⟩
  rw [c4_debounce_exactly_one_pass 0 (1/10) [(50, 2/10), (100, 9/10)] hch]
  norm_num [List.getLastD, quietPeriod]

/-! ## Claims C5, C6 -/

/-- Claim C5: whenever an aggregation boundary is reached (at least 500 ms
since the last one) after `sampleCount` rendered frames over `elapsedMillis`
milliseconds, the emitted record has
`fps = round(sampleCount * 1000 / elapsedMillis)` and average frame time
`elapsedMillis / sampleCount` rendered to 2 decimals; and the telemetry
result of the loop iteration — state and emitted record — is identical in
capped and uncapped modes, which differ only in how the next iteration is
scheduled. -/
theorem c5_aggregation_formulas (mode : ScheduleMode) (st : TelemetryState)
    (f : FrameSample) (h : 500 ≤ f.time - st.lastTime) :
    (animateStep mode st f).2.2 =
      some ⟨round (((st.frameCount + 1 : Nat) : ℚ) * 1000 / (f.time - st.lastTime)),
        toFixed2 ((f.time - st.lastTime) / ((st.frameCount + 1 : Nat) : ℚ)),
        f.cpuMillis, f.gpuMillis⟩ ∧
    (animateStep mode st f).2 = (animateStep ScheduleMode.capped st f).2 ∧
    (animateStep mode st f).2 = (animateStep ScheduleMode.uncapped st f).2 := by
  refine ⟨?_, ?_, ?_⟩
  · simp [animateStep, h]
  · cases mode <;> rfl
  · cases mode <;> rfl

theorem c5_witness :
    ((500 : ℚ) ≤ (500 : ℚ) - 0) ∧
    (animateStep ScheduleMode.capped ⟨0, 99⟩ ⟨500, 2, none⟩).2.2 =
      some ⟨200, 5, 2, none⟩ := by
  refine ⟨by norm_num, ?_⟩
  have h := (c5_aggregation_formulas ScheduleMode.capped ⟨0, 99⟩ ⟨500, 2, none⟩
    (by norm_num)).1
  rw [h]
  norm_num [round_eq, toFixed2]

/-- Claim C6 fails as stated: the 500 ms block reports the `cpuTime` of the
single frame that crossed the boundary, not the arithmetic mean of all frames
of the interval.  Two frames with cpuMillis 1 then 3 in one interval report
3, while their mean is 2. -/
theorem c6_counterexample :
    (runFrames ScheduleMode.capped ⟨0, 0⟩
        [⟨100, 1, none⟩, ⟨600, 3, none⟩]).2.map (·.cpuMillis) = [3] ∧
    arithmeticMean [(1 : ℚ), 3] = 2 ∧ ((3 : ℚ) ≠ 2) := by
  refine ⟨?_, by norm_num [arithmeticMean], by norm_num⟩
  norm_num [runFrames, animateStep, List.foldl]

/-- Claim C6 amended: the reported CPU value of each aggregation interval is
the `cpuTime` of the interval's final frame — the frame whose iteration
crosses the 500 ms boundary and emits the record, after which `frameCount`
resets — a snapshot, not an average; in particular, when every cpu sample of
the interval equals that final frame's value (e.g. N frames each at 2.0 ms),
the reported value coincides with the arithmetic mean of the interval's
samples. -/
theorem c6_amended_cpu_snapshot (mode : ScheduleMode) (st : TelemetryState)
    (f : FrameSample) (rec : AggRecord)
    (h : (animateStep mode st f).2.2 = some rec) :
    rec.cpuMillis = f.cpuMillis ∧
    ∀ samples : List ℚ, samples ≠ [] → (∀ x ∈ samples, x = f.cpuMillis) →
      rec.cpuMillis = arithmeticMean samples := by
  have hcpu : rec.cpuMillis = f.cpuMillis := by
    by_cases hb : 500 ≤ f.time - st.lastTime
    · simp [animateStep, hb] at h
      rw [← h]
    · simp [animateStep, hb] at h
  refine ⟨hcpu, ?_⟩
  intro samples hne hall
  have hsum : samples.sum = samples.length • f.cpuMillis :=
    List.sum_eq_card_nsmul samples f.cpuMillis hall
  have hlen : ((samples.length : ℚ)) ≠ 0 :=
    Nat.cast_ne_zero.mpr (List.length_pos.mpr hne).ne'
  rw [hcpu, arithmeticMean, hsum, nsmul_eq_mul, mul_comm, mul_div_assoc,
    div_self hlen, mul_one]

theorem c6_amended_witness :
    ((animateStep ScheduleMode.capped ⟨0, 99⟩ ⟨500, 2, none⟩).2.2 =
      some ⟨200, 5, 2, none⟩) ∧
    ((⟨200, 5, 2, none⟩ : AggRecord).cpuMillis =
        (⟨500, 2, none⟩ : FrameSample).cpuMillis ∧
      ∀ samples : List ℚ, samples ≠ [] →
        (∀ x ∈ samples, x = (⟨500, 2, none⟩ : FrameSample).cpuMillis) →
        (⟨200, 5, 2, none⟩ : AggRecord).cpuMillis = arithmeticMean samples) := by
  have h : (animateStep ScheduleMode.capped ⟨0, 99⟩ ⟨500, 2, none⟩).2.2 =
      some ⟨200, 5, 2, none⟩ := by
    norm_num [animateStep, toFixed2, round_eq]
  exact ⟨h, c6_amended_cpu_snapshot ScheduleMode.capped ⟨0, 99⟩ ⟨500, 2, none⟩
    ⟨200, 5, 2, none⟩ h⟩

/-! ## Claim C7 -/

theorem chart_foldl_length (vals : List ℚ) :
    ∀ d : List ℚ, d.length = 60 → (vals.foldl chartUpdate d).length = 60 := by
  induction vals with
  | nil => intro d h; exact h
  | cons v vs ih =>
      intro d h
      rw [List.foldl_cons]
      apply ih
      simp [chartUpdate, h]

/-- Claim C7: starting from the 60-point zero-filled history, after any
sequence of pushed values the history length is still exactly 60 (it never
exceeds the cap), and one further push evicts exactly the oldest point: the
new history is the previous one minus its first element, with the new value
appended. -/
theorem c7_history_capped_fifo (vals : List ℚ) (v : ℚ) :
    (vals.foldl chartUpdate chartInit).length = 60 ∧
    (vals ++ [v]).foldl chartUpdate chartInit =
      (vals.foldl chartUpdate chartInit).tail ++ [v] := by
  constructor
  · exact chart_foldl_length vals chartInit (by simp [chartInit])
  · rw [List.foldl_append]
    rfl

/-! ## Claim C8 -/

/-- A burst of `n` rendered frames with query ids `base, base+1, …`. -/
def frameBurst (base n : Nat) : List GpuEvent :=
  (List.range n).map (fun i => GpuEvent.frame (base + i))

/-- 100 frames split over two 500 ms reporting intervals whose polls both find
the head query's result unavailable. -/
def neverReadyTrace : List GpuEvent :=
  frameBurst 0 50 ++ [GpuEvent.pollEvent QueryStatus.notReady] ++
    frameBurst 50 50 ++ [GpuEvent.pollEvent QueryStatus.notReady]

/-- 120 frames over four reporting intervals in the best case: every poll
finds the head query ready. -/
def healthyTrace : List GpuEvent :=
  frameBurst 0 30 ++ [GpuEvent.pollEvent (QueryStatus.ready 1000000)] ++
    frameBurst 30 30 ++ [GpuEvent.pollEvent (QueryStatus.ready 1000000)] ++
    frameBurst 60 30 ++ [GpuEvent.pollEvent (QueryStatus.ready 1000000)] ++
    frameBurst 90 30 ++ [GpuEvent.pollEvent (QueryStatus.ready 1000000)]

set_option maxRecDepth 40000 in
/-- Claim C8 is violated by the code: `poll` removes at most one query per
call and leaves a not-yet-available head query in place, while `start` pushes
one query per frame, so along the render loop (one start per frame, one poll
per 500 ms interval) the pending queue grows without bound.  After 100 frames
and two polls whose head result never became available the queue holds all
100 queries and the never-ready query 0 is still at the front — never
abandoned; even when every poll finds its head ready, 120 frames and four
polls leave 116 pending queries. -/
theorem c8_queue_unbounded_growth :
    (gpuRun true neverReadyTrace).length = 100 ∧
    (gpuRun true neverReadyTrace).head? = some 0 ∧
    gpuPoll true QueryStatus.notReady [0, 1, 2] = ([0, 1, 2], none) ∧
    (gpuRun true healthyTrace).length = 116 := by
  refine ⟨?_, ?_, by decide, ?_⟩ <;> decide
